import Mathlib

/-!
Verification of `scripts/sync_models.py`: a reconciliation engine that syncs a
declarative provider/model catalog into a persisted store (two collections,
`Provider` and `Model`).

The embedding is shallow: the store is a pair of row lists, the desired-state
document is association lists (JSON objects), and the nondeterministic inputs of
the script (`date.today()`, `datetime.utcnow()`, `uuid.uuid4()`, `os.getenv`,
and datastore failures) are explicit parameters.  `uuid.uuid4()` is modelled by
a counter of `Uid.gen` identifiers, kept distinct from the `Uid.ext`
identifiers of rows that pre-exist the run, reflecting uuid4's freshness
guarantee.
-/

namespace SyncModels

/-- A calendar date.  `datetime.date` values compare lexicographically by
(year, month, day). -/
structure Date where
  year : Nat
  month : Nat
  day : Nat
deriving DecidableEq, Repr

/-- `datetime.date.__le__`: lexicographic comparison. -/
def Date.le (a b : Date) : Bool :=
  a.year < b.year ||
    (a.year == b.year &&
      (a.month < b.month || (a.month == b.month && a.day ≤ b.day)))

/-- Gregorian leap-year rule, as used by `datetime`. -/
def isLeap (y : Nat) : Bool :=
  y % 4 == 0 && (y % 100 != 0 || y % 400 == 0)

/-- Number of days in a month, as validated by `datetime.date`. -/
def daysInMonth (y m : Nat) : Nat :=
  if m == 2 then (if isLeap y then 29 else 28)
  else if m == 4 || m == 6 || m == 9 || m == 11 then 30
  else 31

/-- `datetime.date` constructor validation: MINYEAR ≤ year ≤ MAXYEAR,
1 ≤ month ≤ 12, 1 ≤ day ≤ days in month. -/
def validDate (y m d : Nat) : Bool :=
  1 ≤ y && y ≤ 9999 && 1 ≤ m && m ≤ 12 && 1 ≤ d && d ≤ daysInMonth y m

/-- Numeric value of a decimal digit character. -/
def digitVal (c : Char) : Nat := c.toNat - 48

def digitsToNat (cs : List Char) : Nat :=
  cs.foldl (fun a c => a * 10 + digitVal c) 0

/-- `datetime.fromisoformat` restricted to the plain `YYYY-MM-DD` form (the
form the desired-state document uses for `depreciationDate`, and the only form
`extract_date`'s regex can hand over); any other string raises `ValueError`,
modelled as `none`. -/
def fromisoformatChars : List Char → Option Date
  | [y1, y2, y3, y4, h1, m1, m2, h2, d1, d2] =>
    if [y1, y2, y3, y4, m1, m2, d1, d2].all Char.isDigit
        && h1 == '-' && h2 == '-' then
      let y := digitsToNat [y1, y2, y3, y4]
      let m := digitsToNat [m1, m2]
      let d := digitsToNat [d1, d2]
      if validDate y m d then some ⟨y, m, d⟩ else none
    else none
  | _ => none

def fromisoformat (s : String) : Option Date :=
  fromisoformatChars s.toList

/-- One attempt of the regex `\d{4}-\d{2}-\d{2}` at the head of the character
list: succeeds iff the first ten characters have the date shape. -/
def datePatWindow : List Char → Option (List Char)
  | c1 :: c2 :: c3 :: c4 :: h1 :: c5 :: c6 :: h2 :: c7 :: c8 :: _ =>
    if [c1, c2, c3, c4, c5, c6, c7, c8].all Char.isDigit
        && h1 == '-' && h2 == '-' then
      some [c1, c2, c3, c4, h1, c5, c6, h2, c7, c8]
    else none
  | _ => none

/-- `re.search(r"(\d{4}-\d{2}-\d{2})", s)`: first position (left to right)
where the pattern matches. -/
def findDateSub : List Char → Option (List Char)
  | [] => none
  | c :: rest =>
    match datePatWindow (c :: rest) with
    | some w => some w
    | none => findDateSub rest

/-- `extract_date`: first `YYYY-MM-DD` substring of a model name, parsed;
`None` when the regex finds nothing or `fromisoformat` raises. -/
def extract_date (s : String) : Option Date :=
  match findDateSub s.toList with
  | some w => fromisoformatChars w
  | none => none

/-- Row identifiers.  `ext s` are identifiers of rows that already exist in the
store before a run; `gen n` is the `n`-th identifier minted by `uuid.uuid4()`
during a run (uuid4 identifiers never collide with existing ones). -/
inductive Uid where
  | ext (s : String)
  | gen (n : Nat)
deriving DecidableEq, Repr

/-- A persisted `Provider` row. -/
structure ProviderRow where
  id : Uid
  name : String
  apiEndpoint : String
  icon : String
deriving DecidableEq, Repr

/-- A persisted `Model` row (the fields `sync_model` reads and writes). -/
structure ModelRow where
  id : Uid
  apiString : String
  providerId : Uid
  createdAt : String
  updatedAt : String
  name : String
  costPerMillionTokenInput : Rat
  costPerMillionTokenOutput : Rat
  capabilities : List String
  availableForChatApp : Option String
  description : String
  releaseDate : Option Date
  isArchived : Bool
deriving DecidableEq, Repr

/-- The persisted store: the `Provider` and `Model` collections. -/
structure Store where
  providers : List ProviderRow
  models : List ModelRow
deriving DecidableEq, Repr

/-- A `{"input": .., "output": ..}` pricing entry. -/
structure PriceInfo where
  input : Rat
  output : Rat
deriving DecidableEq, Repr

/-- A provider's configuration object in the desired-state document: `icon`,
the `models` key list, and the per-model parallel maps, plus the `provider`
name that `main` injects (`cfg["provider"] = provider`) before syncing models.
JSON objects are association lists looked up by first match. -/
structure ProviderCfg where
  icon : String
  models : List String
  price : List (String × PriceInfo)
  name : List (String × String)
  capabilities : List (String × List String)
  availableForChatApp : List (String × String)
  descriptions : List (String × String)
  depreciationDate : List (String × String)
  provider : String
deriving DecidableEq, Repr

/-- `dict.get(k)`: `none` when the key is absent. -/
def lookupAssoc (l : List (String × α)) (k : String) : Option α :=
  (l.find? (fun e => e.1 == k)).map (·.2)

/-- Which datastore calls raise this run, per entity name (an exception from
the supabase client). -/
structure Oracle where
  provLookupFails : String → Bool
  provUpdateFails : String → Bool
  provInsertFails : String → Bool
  modelFetchFails : String → Bool
  modelUpdateFails : String → Bool
  modelInsertFails : String → Bool

/-- The run where every datastore call succeeds. -/
def noFail : Oracle :=
  ⟨fun _ => false, fun _ => false, fun _ => false,
   fun _ => false, fun _ => false, fun _ => false⟩

/-- Outcome classification of `sync_model` for one (provider, model key). -/
inductive Outcome where
  | created
  | updated
  | unchanged
  | skippedNoPrice
  | skippedFiltered
  | failed
deriving DecidableEq, Repr

/-- Outcome classification of `upsert_provider` for one provider. -/
inductive ProvOutcome where
  | created
  | updated
  | unchanged
  | updateFailed
  | insertFailed
deriving DecidableEq, Repr

/-- `os.getenv(k, "")`, the environment as an association list. -/
def envLookup (env : List (String × String)) (k : String) : String :=
  ((env.find? (fun e => e.1 == k)).map (·.2)).getD ""

/-- Python `str.upper()` (ASCII case mapping on the character sequence). -/
def pyUpper (s : String) : String :=
  String.mk (s.data.map Char.toUpper)

/-- `f"{provider_name.upper()}_API_ENDPOINT"`. -/
def providerEndpointVar (name : String) : String :=
  pyUpper name ++ "_API_ENDPOINT"

/-- `.eq("name", provider_name).maybe_single()` on `Provider`. -/
def findProvider (s : Store) (name : String) : Option ProviderRow :=
  s.providers.find? (fun p => p.name == name)

/-- Apply the `updates` dict of `upsert_provider` (at most `apiEndpoint` and
`icon`) to the rows matching `.eq("id", provider_id)`. -/
def updateProviderRow (updE : Bool) (endpoint : String) (updI : Bool)
    (iconUrl : String) (pid : Uid) (s : Store) : Store :=
  { s with
    providers := s.providers.map fun q =>
      if q.id == pid then
        { q with
          apiEndpoint := if updE then endpoint else q.apiEndpoint
          icon := if updI then iconUrl else q.icon }
      else q }

/-- Result of `upsert_provider`: the returned provider id (`none` when the
insert failed), the store, the uuid counter, and the outcome. -/
structure UpsertResult where
  pid : Option Uid
  store : Store
  gen : Nat
  outcome : ProvOutcome
deriving Repr

/-- `upsert_provider`: ensure a `Provider` row exists, diff-update
`apiEndpoint`/`icon` (a field only when the desired value is non-empty and
differs), return its id.  A lookup exception leaves `existing = None`; an
update exception is logged but the id is still returned; an insert exception
returns `None`. -/
def upsert_provider (o : Oracle) (env : List (String × String)) (s : Store)
    (g : Nat) (providerName : String) (cfg : ProviderCfg) : UpsertResult :=
  let existing := if o.provLookupFails providerName then none
                  else findProvider s providerName
  let iconUrl := cfg.icon
  let endpoint := envLookup env (providerEndpointVar providerName)
  match existing with
  | some p =>
    let updE := endpoint != "" && p.apiEndpoint != endpoint
    let updI := iconUrl != "" && p.icon != iconUrl
    if updE || updI then
      if o.provUpdateFails providerName then
        ⟨some p.id, s, g, .updateFailed⟩
      else
        ⟨some p.id, updateProviderRow updE endpoint updI iconUrl p.id s, g,
          .updated⟩
    else
      ⟨some p.id, s, g, .unchanged⟩
  | none =>
    let newId := Uid.gen g
    if o.provInsertFails providerName then
      ⟨none, s, g + 1, .insertFailed⟩
    else
      ⟨some newId,
        { s with providers := s.providers ++ [⟨newId, providerName, endpoint, iconUrl⟩] },
        g + 1, .created⟩

/-- The `is_archived` computation of `sync_model`: `dep_str` truthy and
parseable and `<= date.today()` (date-only).  A `ValueError` (malformed date)
is logged and leaves the flag `False`. -/
def computeIsArchived (cfg : ProviderCfg) (key : String) (today : Date) : Bool :=
  match lookupAssoc cfg.depreciationDate key with
  | none => false
  | some depStr =>
    if depStr == "" then false
    else
      match fromisoformat depStr with
      | some d => Date.le d today
      | none => false

/-- The `rec` dict built by `sync_model` for one model key. -/
def buildRec (today : Date) (now : String) (g : Nat) (pid : Uid) (key : String)
    (cfg : ProviderCfg) (price : PriceInfo) : ModelRow :=
  { id := Uid.gen g
    apiString := key
    providerId := pid
    createdAt := now
    updatedAt := now
    name := (lookupAssoc cfg.name key).getD key
    costPerMillionTokenInput := price.input
    costPerMillionTokenOutput := price.output
    capabilities := (lookupAssoc cfg.capabilities key).getD []
    availableForChatApp :=
      match lookupAssoc cfg.availableForChatApp key with
      | some v => if v == "Free" || v == "Pro" then some v else none
      | none => none
    description := (lookupAssoc cfg.descriptions key).getD ""
    releaseDate := extract_date key
    isArchived := computeIsArchived cfg key today }

/-- Python `set(a) == set(b)` on capability lists. -/
def setEq (a b : List String) : Bool :=
  a.all (fun x => b.contains x) && b.all (fun x => a.contains x)

/-- `if existing_val != val` for one field: the field's entry in the `updates`
dict, `none` when the values agree. -/
def diffField [DecidableEq α] (oldV newV : α) : Option α :=
  if oldV = newV then none else some newV

/-- The `updates` dict of `sync_model`: every field of `rec` except `id`,
`createdAt`, `updatedAt`; `capabilities` compared as a set, the rest by
equality. -/
structure ModelUpdates where
  apiString : Option String
  providerId : Option Uid
  name : Option String
  costPerMillionTokenInput : Option Rat
  costPerMillionTokenOutput : Option Rat
  capabilities : Option (List String)
  availableForChatApp : Option (Option String)
  description : Option String
  releaseDate : Option (Option Date)
  isArchived : Option Bool
deriving DecidableEq, Repr

def diffUpdates (ex desired : ModelRow) : ModelUpdates :=
  { apiString := diffField ex.apiString desired.apiString
    providerId := diffField ex.providerId desired.providerId
    name := diffField ex.name desired.name
    costPerMillionTokenInput :=
      diffField ex.costPerMillionTokenInput desired.costPerMillionTokenInput
    costPerMillionTokenOutput :=
      diffField ex.costPerMillionTokenOutput desired.costPerMillionTokenOutput
    capabilities :=
      if setEq ex.capabilities desired.capabilities then none
      else some desired.capabilities
    availableForChatApp :=
      diffField ex.availableForChatApp desired.availableForChatApp
    description := diffField ex.description desired.description
    releaseDate := diffField ex.releaseDate desired.releaseDate
    isArchived := diffField ex.isArchived desired.isArchived }

/-- `if updates:` — Python dict truthiness. -/
def ModelUpdates.isEmpty (u : ModelUpdates) : Bool :=
  u.apiString.isNone && u.providerId.isNone && u.name.isNone &&
  u.costPerMillionTokenInput.isNone && u.costPerMillionTokenOutput.isNone &&
  u.capabilities.isNone && u.availableForChatApp.isNone &&
  u.description.isNone && u.releaseDate.isNone && u.isArchived.isNone

/-- Apply a non-empty `updates` dict (plus the refreshed `updatedAt`) to one
row. -/
def applyModelUpdates (u : ModelUpdates) (now : String) (m : ModelRow) : ModelRow :=
  { m with
    apiString := u.apiString.getD m.apiString
    providerId := u.providerId.getD m.providerId
    name := u.name.getD m.name
    costPerMillionTokenInput :=
      u.costPerMillionTokenInput.getD m.costPerMillionTokenInput
    costPerMillionTokenOutput :=
      u.costPerMillionTokenOutput.getD m.costPerMillionTokenOutput
    capabilities := u.capabilities.getD m.capabilities
    availableForChatApp := u.availableForChatApp.getD m.availableForChatApp
    description := u.description.getD m.description
    releaseDate := u.releaseDate.getD m.releaseDate
    isArchived := u.isArchived.getD m.isArchived
    updatedAt := now }

/-- `.update(updates).eq("apiString", rec["apiString"])` on `Model`. -/
def updateModelsByApiString (u : ModelUpdates) (now : String) (key : String)
    (s : Store) : Store :=
  { s with
    models := s.models.map fun m =>
      if m.apiString == key then applyModelUpdates u now m else m }

/-- `.eq("apiString", ..).maybe_single()` on `Model`. -/
def findModel (s : Store) (key : String) : Option ModelRow :=
  s.models.find? (fun m => m.apiString == key)

/-- Result of `sync_model` on one key: store, uuid counter, outcome. -/
structure SyncResult where
  store : Store
  gen : Nat
  outcome : Outcome
deriving Repr

/-- `f"{cfg['provider']}/{key}"`. -/
def fullModelName (cfg : ProviderCfg) (key : String) : String :=
  cfg.provider ++ "/" ++ key

/-- `if models_filter and full_name not in models_filter` — an empty filter
list is falsy, so it never skips. -/
def filterSkips (filter : List String) (fullName : String) : Bool :=
  !filter.isEmpty && !filter.contains fullName

/-- `sync_model` after the filter gate: price gate, build `rec`, fetch by
`apiString`, insert or diff-update.  A fetch exception (or error payload)
leaves `existing = None`; update/insert exceptions are logged (`failed`). -/
def syncModelCore (o : Oracle) (today : Date) (now : String) (s : Store)
    (g : Nat) (pid : Uid) (key : String) (cfg : ProviderCfg) : SyncResult :=
  match lookupAssoc cfg.price key with
  | none => ⟨s, g, .skippedNoPrice⟩
  | some price =>
    let desired := buildRec today now g pid key cfg price
    let existing := if o.modelFetchFails key then none else findModel s key
    match existing with
    | some ex =>
      let u := diffUpdates ex desired
      if u.isEmpty then ⟨s, g + 1, .unchanged⟩
      else if o.modelUpdateFails key then ⟨s, g + 1, .failed⟩
      else ⟨updateModelsByApiString u now key s, g + 1, .updated⟩
    | none =>
      if o.modelInsertFails key then ⟨s, g + 1, .failed⟩
      else ⟨{ s with models := s.models ++ [desired] }, g + 1, .created⟩

/-- `sync_model`: the filter gate, then the core. -/
def sync_model (o : Oracle) (today : Date) (now : String)
    (filter : List String) (s : Store) (g : Nat) (pid : Uid) (key : String)
    (cfg : ProviderCfg) : SyncResult :=
  if filterSkips filter (fullModelName cfg key) then ⟨s, g, .skippedFiltered⟩
  else syncModelCore o today now s g pid key cfg

/-- The inner loop of `main`: `for model_key in cfg.get("models", []):
sync_model(...)`. -/
def syncModels (o : Oracle) (today : Date) (now : String)
    (filter : List String) (pid : Uid) (cfg : ProviderCfg) :
    List String → Store → Nat → Store × Nat × List Outcome
  | [], s, g => (s, g, [])
  | k :: ks, s, g =>
    let r := sync_model o today now filter s g pid k cfg
    let rest := syncModels o today now filter pid cfg ks r.store r.gen
    (rest.1, rest.2.1, r.outcome :: rest.2.2)

/-- Aggregate result of a run. -/
structure RunResult where
  store : Store
  gen : Nat
  provOutcomes : List ProvOutcome
  modelOutcomes : List Outcome
deriving Repr

/-- The provider loop of `main`: `upsert_provider`; on a `None` provider id the
provider's models are skipped (`continue`); otherwise `cfg["provider"] =
provider` and every model key is synced. -/
def runProviders (o : Oracle) (today : Date) (now : String)
    (env : List (String × String)) (filter : List String) :
    List (String × ProviderCfg) → Store → Nat → RunResult
  | [], s, g => ⟨s, g, [], []⟩
  | (pname, cfg0) :: rest, s, g =>
    let up := upsert_provider o env s g pname cfg0
    match up.pid with
    | none =>
      let r := runProviders o today now env filter rest up.store up.gen
      ⟨r.store, r.gen, up.outcome :: r.provOutcomes, r.modelOutcomes⟩
    | some pid =>
      let cfg := { cfg0 with provider := pname }
      let after := syncModels o today now filter pid cfg cfg.models up.store up.gen
      let r := runProviders o today now env filter rest after.1 after.2.1
      ⟨r.store, r.gen, up.outcome :: r.provOutcomes,
        after.2.2 ++ r.modelOutcomes⟩

/-- `main` after argument/client/JSON setup: the provider loop and nothing
else.  Note: `main` never invokes `archive_removed_entities`; the run ends
after the provider loop (`logger.info(f"[{args.env}] sync complete.")`). -/
def main (o : Oracle) (today : Date) (now : String)
    (env : List (String × String)) (filter : List String)
    (doc : List (String × ProviderCfg)) (s : Store) : RunResult :=
  runProviders o today now env filter doc s 0

/-- `{"isArchived": True, "updatedAt": now_iso}` applied to one row. -/
def archiveModelRow (now : String) (m : ModelRow) : ModelRow :=
  { m with isArchived := true, updatedAt := now }

/-- Step 1 body of `archive_removed_entities`: archive every not-yet-archived
model of one provider id. -/
def archiveByPid (now : String) (pid : Uid) (s : Store) : Store :=
  { s with
    models := s.models.map fun m =>
      if m.providerId == pid && !m.isArchived then archiveModelRow now m else m }

/-- Step 2 body of `archive_removed_entities`: archive every not-yet-archived
model of one provider id whose `apiString` is not in the valid set. -/
def archiveNotIn (now : String) (pid : Uid) (valid : List String) (s : Store) : Store :=
  { s with
    models := s.models.map fun m =>
      if m.providerId == pid && !valid.contains m.apiString && !m.isArchived
      then archiveModelRow now m else m }

/-- `db_name_to_id = {p["name"]: p["id"] for p in db_providers}` — for a
duplicated name the last row wins. -/
def dbNameToId (provs : List ProviderRow) (n : String) : Option Uid :=
  (provs.reverse.find? (fun p => p.name == n)).map (·.id)

/-- `set(db_name_to_id.keys()) - json_provider_names` (as a duplicate-free
list). -/
def missingProviderNames (provs : List ProviderRow) (jsonNames : List String) :
    List String :=
  ((provs.map (·.name)).dedup).filter (fun n => !jsonNames.contains n)

/-- `archive_removed_entities`: step 1 archives all models of providers absent
from the document; step 2 archives, per retained provider, the models whose
`apiString` is not in that provider's desired model set.
`mbp` is `models_by_provider`: (provider name, provider id, model key set). -/
def archive_removed_entities (now : String)
    (mbp : List (String × Uid × List String)) (s : Store) : Store :=
  let jsonNames := mbp.map (·.1)
  let s1 := (missingProviderNames s.providers jsonNames).foldl
    (fun acc n =>
      match dbNameToId s.providers n with
      | some pid => archiveByPid now pid acc
      | none => acc) s
  mbp.foldl (fun acc e => archiveNotIn now e.2.1 e.2.2 acc) s1

end SyncModels

namespace SyncModels

/-! ### Generic list/option helpers -/

theorem find?_map_of_pres {α : Type} {f : α → α} {p : α → Bool}
    (hp : ∀ x, p (f x) = p x) (l : List α) :
    (l.map f).find? p = (l.find? p).map f := by
  rw [List.find?_map]
  have hpf : (p ∘ f) = p := funext hp
  rw [hpf]

theorem diffField_eq_none {α : Type} [DecidableEq α] {a b : α} :
    diffField a b = none ↔ a = b := by
  unfold diffField
  split <;> simp_all

theorem diffField_apply {α : Type} [DecidableEq α] (a b : α) :
    diffField ((diffField a b).getD a) b = none := by
  unfold diffField
  split <;> simp_all

theorem setEq_refl (l : List String) : setEq l l = true := by
  simp [setEq, List.all_eq_true]

theorem setEq_apply (a b : List String) :
    setEq ((if setEq a b then none else some b).getD a) b = true := by
  split <;> simp_all [setEq_refl]

/-! ### Field-comparison helpers -/

theorem isEmpty_diffUpdates_iff (ex d : ModelRow) :
    (diffUpdates ex d).isEmpty = true ↔
      (ex.apiString = d.apiString ∧ ex.providerId = d.providerId ∧
       ex.name = d.name ∧
       ex.costPerMillionTokenInput = d.costPerMillionTokenInput ∧
       ex.costPerMillionTokenOutput = d.costPerMillionTokenOutput ∧
       setEq ex.capabilities d.capabilities = true ∧
       ex.availableForChatApp = d.availableForChatApp ∧
       ex.description = d.description ∧ ex.releaseDate = d.releaseDate ∧
       ex.isArchived = d.isArchived) := by
  by_cases hc : setEq ex.capabilities d.capabilities
  · simp only [diffUpdates, ModelUpdates.isEmpty, Option.isNone_iff_eq_none,
      diffField_eq_none, hc, if_true, Bool.and_eq_true, decide_eq_true_eq]
    tauto
  · simp only [diffUpdates, ModelUpdates.isEmpty, Option.isNone_iff_eq_none,
      diffField_eq_none, hc, if_false, Bool.and_eq_true, decide_eq_true_eq]
    simp [hc]

theorem diffUpdates_self_isEmpty (m : ModelRow) :
    (diffUpdates m m).isEmpty = true := by
  rw [isEmpty_diffUpdates_iff]
  simp [setEq_refl]

theorem diffUpdates_apply_isEmpty (ex d : ModelRow) (now : String) :
    (diffUpdates (applyModelUpdates (diffUpdates ex d) now ex) d).isEmpty = true := by
  simp [applyModelUpdates, diffUpdates, ModelUpdates.isEmpty,
    Option.isNone_iff_eq_none, diffField_apply, setEq_apply]

theorem diffUpdates_buildRec_params (m : ModelRow) (today : Date)
    (now now' : String) (g g' : Nat) (pid : Uid) (key : String)
    (cfg : ProviderCfg) (price : PriceInfo) :
    diffUpdates m (buildRec today now g pid key cfg price) =
      diffUpdates m (buildRec today now' g' pid key cfg price) := rfl

/-! ### Row-lookup helpers -/

theorem findModel_apiString {s : Store} {key : String} {m : ModelRow}
    (h : findModel s key = some m) : m.apiString = key := by
  have := List.find?_some h
  simpa using this

theorem findProvider_name {s : Store} {n : String} {p : ProviderRow}
    (h : findProvider s n = some p) : p.name = n := by
  have := List.find?_some h
  simpa using this

theorem applyModelUpdates_apiString {u : ModelUpdates} (hu : u.apiString = none)
    (now : String) (m : ModelRow) :
    (applyModelUpdates u now m).apiString = m.apiString := by
  simp [applyModelUpdates, hu]

theorem findModel_updateModels {u : ModelUpdates} (hu : u.apiString = none)
    (now : String) (key key' : String) (s : Store) :
    findModel (updateModelsByApiString u now key s) key' =
      (findModel s key').map
        (fun m => if m.apiString == key then applyModelUpdates u now m else m) := by
  unfold findModel updateModelsByApiString
  exact find?_map_of_pres
    (fun x => by
      by_cases hx : x.apiString == key <;>
        simp [hx, applyModelUpdates_apiString hu]) _

theorem findModel_update_other {u : ModelUpdates} (hu : u.apiString = none)
    {now key key' : String} {s : Store} (hne : key' ≠ key) :
    findModel (updateModelsByApiString u now key s) key' = findModel s key' := by
  rw [findModel_updateModels hu]
  cases h : findModel s key' with
  | none => rfl
  | some m =>
    have hm : m.apiString = key' := findModel_apiString h
    simp [hm, hne]

theorem findModel_update_self {u : ModelUpdates} (hu : u.apiString = none)
    {now key : String} {s : Store} {ex : ModelRow}
    (hex : findModel s key = some ex) :
    findModel (updateModelsByApiString u now key s) key =
      some (applyModelUpdates u now ex) := by
  rw [findModel_updateModels hu, hex]
  have hm : ex.apiString = key := findModel_apiString hex
  simp [hm]

theorem findModel_append_other {s : Store} {m0 : ModelRow} {key' : String}
    (hne : m0.apiString ≠ key') :
    findModel { s with models := s.models ++ [m0] } key' = findModel s key' := by
  unfold findModel
  rw [List.find?_append]
  cases h : s.models.find? (fun m => m.apiString == key') with
  | none => simp [hne]
  | some m => rfl

theorem findModel_append_self {s : Store} {m0 : ModelRow} {key : String}
    (h : findModel s key = none) (hm : m0.apiString = key) :
    findModel { s with models := s.models ++ [m0] } key = some m0 := by
  unfold findModel
  rw [List.find?_append]
  unfold findModel at h
  simp [h, hm]

end SyncModels

namespace SyncModels

/-! ### Concrete fixtures used by witnesses and counterexamples -/

/-- A store holding one provider `"legacy"` with one unarchived model. -/
def storeLegacy : Store :=
  ⟨[⟨Uid.ext "P0", "legacy", "", ""⟩],
   [⟨Uid.ext "M0", "gpt-x", Uid.ext "P0", "t0", "t0", "gpt-x", 1, 2, [], none,
     "", none, false⟩]⟩

/-- A store holding provider `"prov"` and one archived model `"k"`. -/
def storeArchived : Store :=
  ⟨[⟨Uid.ext "P0", "prov", "", ""⟩],
   [⟨Uid.ext "M0", "k", Uid.ext "P0", "t0", "t0", "k", 1, 2, [], none, "",
     none, true⟩]⟩

/-- A config for provider `"prov"` listing model `"k"` with pricing and no
depreciation date. -/
def cfgPricedK : ProviderCfg :=
  ⟨"", ["k"], [("k", ⟨1, 2⟩)], [], [], [], [], [], "prov"⟩

/-- A config whose only model `"k"` has no pricing entry. -/
def cfgNoPriceK : ProviderCfg :=
  ⟨"", ["k"], [], [], [], [], [], [], "prov"⟩

/-- A config with a depreciation date for `"k"`. -/
def cfgDepK (ds : String) : ProviderCfg :=
  ⟨"", ["k"], [("k", ⟨1, 2⟩)], [], [], [], [], [("k", ds)], "prov"⟩

/-! ### Claim theorems -/

/-- C10: an allow-list that is supplied but empty (`--models` with zero
identifiers gives `models_filter = []`, exactly the value used when the flag is
omitted) disables filtering entirely: for every model key and every state,
`sync_model` with filter `[]` proceeds exactly as the unfiltered core — no key
is ever skipped as not listed. -/
theorem c10_empty_filter_disables_filtering (o : Oracle) (today : Date)
    (now : String) (s : Store) (g : Nat) (pid : Uid) (key : String)
    (cfg : ProviderCfg) :
    sync_model o today now [] s g pid key cfg =
      syncModelCore o today now s g pid key cfg := by
  simp [sync_model, filterSkips]

/-- C4: pricing gate — for a model key with no pricing entry in the document,
`sync_model` performs no datastore write (the store, hence any existing row for
that `apiString`, is returned with every field unchanged), and when the key
passes the filter the outcome is `skippedNoPrice`. -/
theorem c4_pricing_gate (o : Oracle) (today : Date) (now : String)
    (filter : List String) (s : Store) (g : Nat) (pid : Uid) (key : String)
    (cfg : ProviderCfg) (hp : lookupAssoc cfg.price key = none) :
    (sync_model o today now filter s g pid key cfg).store = s ∧
    (filterSkips filter (fullModelName cfg key) = false →
      (sync_model o today now filter s g pid key cfg).outcome = .skippedNoPrice) := by
  unfold sync_model syncModelCore
  cases hf : filterSkips filter (fullModelName cfg key) <;> simp [hf, hp]

theorem c4_pricing_gate_witness :
    lookupAssoc cfgNoPriceK.price "k" = none ∧
    ((sync_model noFail ⟨2026, 1, 1⟩ "t1" [] storeArchived 0 (Uid.ext "P0") "k"
        cfgNoPriceK).store = storeArchived ∧
      (filterSkips [] (fullModelName cfgNoPriceK "k") = false →
        (sync_model noFail ⟨2026, 1, 1⟩ "t1" [] storeArchived 0 (Uid.ext "P0")
          "k" cfgNoPriceK).outcome = .skippedNoPrice)) :=
  ⟨rfl, c4_pricing_gate noFail ⟨2026, 1, 1⟩ "t1" [] storeArchived 0
    (Uid.ext "P0") "k" cfgNoPriceK rfl⟩

/-- C5: depreciation-date rule — when the document carries a depreciation
entry for the key, a parseable date `d` makes the computed `isArchived` equal
to `d ≤ today` (date-only comparison: equal to today gives `true`, any later
date gives `false`), and an unparseable (malformed) date yields `false` rather
than a failure. -/
theorem c5_depreciation_rule (cfg : ProviderCfg) (key : String) (today : Date)
    (ds : String) (hs : lookupAssoc cfg.depreciationDate key = some ds) :
    (∀ d, fromisoformat ds = some d →
      computeIsArchived cfg key today = Date.le d today) ∧
    (fromisoformat ds = none → computeIsArchived cfg key today = false) := by
  unfold computeIsArchived
  rw [hs]
  by_cases he : ds = ""
  · subst he
    constructor
    · intro d hd
      simp [fromisoformat, fromisoformatChars] at hd
    · intro _
      simp
  · have hne : (ds == "") = false := by simp [he]
    simp only [hne, Bool.false_eq_true, if_false]
    constructor
    · intro d hd
      simp [hd]
    · intro hd
      simp [hd]

theorem c5_depreciation_rule_witness :
    lookupAssoc (cfgDepK "2026-10-12").depreciationDate "k" = some "2026-10-12" ∧
    computeIsArchived (cfgDepK "2026-10-12") "k" ⟨2026, 10, 12⟩ = true ∧
    computeIsArchived (cfgDepK "2026-10-12") "k" ⟨2026, 10, 11⟩ = false ∧
    computeIsArchived (cfgDepK "not-a-date") "k" ⟨2026, 10, 12⟩ = false :=
  ⟨rfl,
   ((c5_depreciation_rule (cfgDepK "2026-10-12") "k" ⟨2026, 10, 12⟩
      "2026-10-12" rfl).1 ⟨2026, 10, 12⟩ (by decide)).trans (by decide),
   ((c5_depreciation_rule (cfgDepK "2026-10-12") "k" ⟨2026, 10, 11⟩
      "2026-10-12" rfl).1 ⟨2026, 10, 12⟩ (by decide)).trans (by decide),
   (c5_depreciation_rule (cfgDepK "not-a-date") "k" ⟨2026, 10, 12⟩
      "not-a-date" rfl).2 (by decide)⟩

/-- C1 (code bug): `main` never invokes the archival sweep.  With an empty
desired-state document and a store holding an unarchived model of provider
`"legacy"`, the run returns the store unchanged — the model ends the run with
`isArchived = false` — whereas `archive_removed_entities` (defined in the
module but never called from `main`) would have archived it. -/
theorem c1_sweep_never_invoked :
    (main noFail ⟨2026, 1, 1⟩ "t1" [] [] [] storeLegacy).store = storeLegacy ∧
    (main noFail ⟨2026, 1, 1⟩ "t1" [] [] [] storeLegacy).store.models.map
      (·.isArchived) = [false] ∧
    (archive_removed_entities "t1" [] storeLegacy).models.map (·.isArchived)
      = [true] := by
  refine ⟨rfl, rfl, ?_⟩
  decide

/-- C2 (counterexample): the claim "reconciling a desired state that contains
the model's key with no depreciation date leaves `isArchived = true`" is false:
for the archived row `"k"`, a full run over a document listing `"k"` with
pricing and no depreciation date ends with the row's `isArchived = false`. -/
theorem c2_counterexample_unarchived :
    (main noFail ⟨2026, 1, 1⟩ "t1" [] [] [("prov", cfgPricedK)]
      storeArchived).store.models.map (·.isArchived) = [false] := by
  decide

end SyncModels

namespace SyncModels

/-! ### Branch equations for the reconciler steps -/

theorem noFail_provLookupFails (n : String) : noFail.provLookupFails n = false := rfl

theorem noFail_provUpdateFails (n : String) : noFail.provUpdateFails n = false := rfl

theorem noFail_provInsertFails (n : String) : noFail.provInsertFails n = false := rfl

theorem noFail_modelFetchFails (n : String) : noFail.modelFetchFails n = false := rfl

theorem noFail_modelUpdateFails (n : String) : noFail.modelUpdateFails n = false := rfl

theorem noFail_modelInsertFails (n : String) : noFail.modelInsertFails n = false := rfl

theorem diffField_getD {α : Type} [DecidableEq α] (a b : α) :
    (diffField a b).getD a = b := by
  unfold diffField
  split <;> simp_all

theorem syncModelCore_price_none (o : Oracle) (today : Date) (now : String)
    (s : Store) (g : Nat) (pid : Uid) (key : String) (cfg : ProviderCfg)
    (hp : lookupAssoc cfg.price key = none) :
    syncModelCore o today now s g pid key cfg = ⟨s, g, .skippedNoPrice⟩ := by
  unfold syncModelCore
  rw [hp]

theorem syncModelCore_created (today : Date) (now : String) (s : Store)
    (g : Nat) (pid : Uid) (key : String) (cfg : ProviderCfg) (price : PriceInfo)
    (hp : lookupAssoc cfg.price key = some price)
    (hex : findModel s key = none) :
    syncModelCore noFail today now s g pid key cfg =
      ⟨{ s with models := s.models ++ [buildRec today now g pid key cfg price] },
        g + 1, .created⟩ := by
  unfold syncModelCore
  rw [hp, noFail_modelFetchFails]
  simp only [Bool.false_eq_true, if_false, hex, noFail_modelInsertFails]

theorem syncModelCore_unchanged (today : Date) (now : String) (s : Store)
    (g : Nat) (pid : Uid) (key : String) (cfg : ProviderCfg) (price : PriceInfo)
    (ex : ModelRow) (hp : lookupAssoc cfg.price key = some price)
    (hex : findModel s key = some ex)
    (hemp : (diffUpdates ex (buildRec today now g pid key cfg price)).isEmpty = true) :
    syncModelCore noFail today now s g pid key cfg = ⟨s, g + 1, .unchanged⟩ := by
  unfold syncModelCore
  rw [hp, noFail_modelFetchFails]
  simp only [Bool.false_eq_true, if_false, hex, hemp, if_true]

theorem syncModelCore_updated (today : Date) (now : String) (s : Store)
    (g : Nat) (pid : Uid) (key : String) (cfg : ProviderCfg) (price : PriceInfo)
    (ex : ModelRow) (hp : lookupAssoc cfg.price key = some price)
    (hex : findModel s key = some ex)
    (hemp : (diffUpdates ex (buildRec today now g pid key cfg price)).isEmpty = false) :
    syncModelCore noFail today now s g pid key cfg =
      ⟨updateModelsByApiString (diffUpdates ex (buildRec today now g pid key cfg price))
        now key s, g + 1, .updated⟩ := by
  unfold syncModelCore
  rw [hp, noFail_modelFetchFails]
  simp only [Bool.false_eq_true, if_false, hex, hemp, noFail_modelUpdateFails]

/-- Abbreviation: the environment endpoint resolved for a provider. -/
def upProvE (env : List (String × String)) (pname : String) : String :=
  envLookup env (providerEndpointVar pname)

/-- Abbreviation: whether `upsert_provider` puts `apiEndpoint` in its update set. -/
def upProvUpdE (env : List (String × String)) (pname : String)
    (p : ProviderRow) : Bool :=
  upProvE env pname != "" && p.apiEndpoint != upProvE env pname

/-- Abbreviation: whether `upsert_provider` puts `icon` in its update set. -/
def upProvUpdI (cfg : ProviderCfg) (p : ProviderRow) : Bool :=
  cfg.icon != "" && p.icon != cfg.icon

theorem upsert_provider_eq_existing (o : Oracle) (env : List (String × String))
    (s : Store) (g : Nat) (pname : String) (cfg : ProviderCfg) (p : ProviderRow)
    (hl : o.provLookupFails pname = false)
    (hfind : findProvider s pname = some p) :
    upsert_provider o env s g pname cfg =
      (if upProvUpdE env pname p || upProvUpdI cfg p then
        (if o.provUpdateFails pname then ⟨some p.id, s, g, .updateFailed⟩
         else ⟨some p.id,
           updateProviderRow (upProvUpdE env pname p) (upProvE env pname)
             (upProvUpdI cfg p) cfg.icon p.id s, g, .updated⟩)
      else ⟨some p.id, s, g, .unchanged⟩) := by
  unfold upsert_provider upProvUpdE upProvUpdI upProvE
  rw [hl]
  simp only [Bool.false_eq_true, if_false, hfind]

theorem upsert_provider_eq_absent (o : Oracle) (env : List (String × String))
    (s : Store) (g : Nat) (pname : String) (cfg : ProviderCfg)
    (hx : (if o.provLookupFails pname then none else findProvider s pname) = none) :
    upsert_provider o env s g pname cfg =
      (if o.provInsertFails pname then ⟨none, s, g + 1, .insertFailed⟩
       else ⟨some (Uid.gen g),
         { s with providers :=
             s.providers ++ [⟨Uid.gen g, pname, upProvE env pname, cfg.icon⟩] },
         g + 1, .created⟩) := by
  unfold upsert_provider upProvE
  rw [hx]

end SyncModels

namespace SyncModels

/-- C2 (amended): the reconciler DOES set `isArchived` back to false —
`sync_model` recomputes `isArchived` from the depreciation rule and diffs it
like any other field, so reconciling a desired state that contains the
archived model's key, with pricing and no depreciation date, updates the row
to `isArchived = false`. -/
theorem c2_amended_reconciler_unarchives (today : Date) (now : String)
    (s : Store) (g : Nat) (pid : Uid) (key : String) (cfg : ProviderCfg)
    (price : PriceInfo) (ex : ModelRow)
    (hp : lookupAssoc cfg.price key = some price)
    (hdep : lookupAssoc cfg.depreciationDate key = none)
    (hex : findModel s key = some ex) (harch : ex.isArchived = true) :
    ∃ m, findModel (syncModelCore noFail today now s g pid key cfg).store key
        = some m ∧ m.isArchived = false := by
  have hArch : computeIsArchived cfg key today = false := by
    unfold computeIsArchived
    rw [hdep]
  have hdes : (buildRec today now g pid key cfg price).isArchived = false := hArch
  have hemp : (diffUpdates ex (buildRec today now g pid key cfg price)).isEmpty = false := by
    cases h : (diffUpdates ex (buildRec today now g pid key cfg price)).isEmpty with
    | false => rfl
    | true =>
      have := ((isEmpty_diffUpdates_iff _ _).mp h).2.2.2.2.2.2.2.2.2
      rw [harch, hdes] at this
      exact absurd this (by simp)
  have hapi : (diffUpdates ex (buildRec today now g pid key cfg price)).apiString = none := by
    have h1 : ex.apiString = key := findModel_apiString hex
    have h2 : (buildRec today now g pid key cfg price).apiString = key := rfl
    simp [diffUpdates, diffField_eq_none, h1, h2]
  rw [syncModelCore_updated today now s g pid key cfg price ex hp hex hemp]
  refine ⟨_, findModel_update_self hapi hex, ?_⟩
  have hiA : (diffUpdates ex (buildRec today now g pid key cfg price)).isArchived
      = some false := by
    simp [diffUpdates, diffField, harch, hdes]
  simp [applyModelUpdates, hiA]

theorem c2_amended_witness :
    lookupAssoc cfgPricedK.price "k" = some ⟨1, 2⟩ ∧
    lookupAssoc cfgPricedK.depreciationDate "k" = none ∧
    (∃ ex, findModel storeArchived "k" = some ex ∧ ex.isArchived = true) ∧
    (∃ m, findModel (syncModelCore noFail ⟨2026, 1, 1⟩ "t1" storeArchived 0
        (Uid.ext "P0") "k" cfgPricedK).store "k" = some m ∧
      m.isArchived = false) :=
  ⟨rfl, rfl, ⟨_, rfl, rfl⟩,
   c2_amended_reconciler_unarchives ⟨2026, 1, 1⟩ "t1" storeArchived 0
     (Uid.ext "P0") "k" cfgPricedK ⟨1, 2⟩ _ rfl rfl rfl rfl⟩

/-- C9: the desired record's `description` is taken from the document's
per-model descriptions map (the `"descriptions"` key of the provider config),
defaulting to `""` when the entry is absent: after a successful, unfiltered
sync of a priced key, the persisted row for that key carries exactly that
description. -/
theorem c9_description_from_map (today : Date) (now : String) (s : Store)
    (g : Nat) (pid : Uid) (key : String) (cfg : ProviderCfg) (price : PriceInfo)
    (hp : lookupAssoc cfg.price key = some price) :
    ∃ m, findModel (syncModelCore noFail today now s g pid key cfg).store key
        = some m ∧
      m.description = (lookupAssoc cfg.descriptions key).getD "" := by
  cases hex : findModel s key with
  | none =>
    rw [syncModelCore_created today now s g pid key cfg price hp hex]
    exact ⟨_, findModel_append_self hex rfl, rfl⟩
  | some ex =>
    cases hemp : (diffUpdates ex (buildRec today now g pid key cfg price)).isEmpty with
    | true =>
      rw [syncModelCore_unchanged today now s g pid key cfg price ex hp hex hemp]
      refine ⟨ex, hex, ?_⟩
      have := ((isEmpty_diffUpdates_iff _ _).mp hemp).2.2.2.2.2.2.2.1
      exact this
    | false =>
      rw [syncModelCore_updated today now s g pid key cfg price ex hp hex hemp]
      have hapi : (diffUpdates ex (buildRec today now g pid key cfg price)).apiString = none := by
        have h1 : ex.apiString = key := findModel_apiString hex
        simp [diffUpdates, diffField_eq_none, h1]
        rfl
      refine ⟨_, findModel_update_self hapi hex, ?_⟩
      have : (applyModelUpdates (diffUpdates ex (buildRec today now g pid key cfg price))
          now ex).description
          = (buildRec today now g pid key cfg price).description := by
        simp only [applyModelUpdates, diffUpdates]
        exact diffField_getD ex.description _
      exact this

theorem c9_description_witness :
    lookupAssoc cfgPricedK.price "k" = some ⟨1, 2⟩ ∧
    (∃ m, findModel (syncModelCore noFail ⟨2026, 1, 1⟩ "t1" storeArchived 0
        (Uid.ext "P0") "k" cfgPricedK).store "k" = some m ∧
      m.description = (lookupAssoc cfgPricedK.descriptions "k").getD "") :=
  ⟨rfl, c9_description_from_map ⟨2026, 1, 1⟩ "t1" storeArchived 0 (Uid.ext "P0")
    "k" cfgPricedK ⟨1, 2⟩ rfl⟩

end SyncModels

namespace SyncModels

/-- Stored row whose `capabilities` is `["vision", "pdf"]`. -/
def rowCaps : ModelRow :=
  ⟨Uid.ext "M0", "m1", Uid.ext "P0", "t0", "t0", "m1", 1, 2,
   ["vision", "pdf"], none, "", none, false⟩

def storeCaps : Store := ⟨[⟨Uid.ext "P0", "prov", "", ""⟩], [rowCaps]⟩

/-- Config whose desired `capabilities` for `"m1"` is `["pdf", "vision"]`. -/
def cfgCaps : ProviderCfg :=
  ⟨"", ["m1"], [("m1", ⟨1, 2⟩)], [], [("m1", ["pdf", "vision"])], [], [], [],
   "prov"⟩

/-- C6: set-insensitive capability diff — for an existing row and a priced
desired record, the reconciler issues no write and the outcome is `unchanged`
exactly when the `capabilities` lists are equal as sets (order/duplicates
ignored) and every other compared field is exactly equal. -/
theorem c6_capability_set_diff (today : Date) (now : String) (s : Store)
    (g : Nat) (pid : Uid) (key : String) (cfg : ProviderCfg) (price : PriceInfo)
    (ex d : ModelRow) (hp : lookupAssoc cfg.price key = some price)
    (hex : findModel s key = some ex)
    (hdes : d = buildRec today now g pid key cfg price) :
    ((syncModelCore noFail today now s g pid key cfg).outcome = .unchanged ∧
     (syncModelCore noFail today now s g pid key cfg).store = s) ↔
    (ex.apiString = d.apiString ∧ ex.providerId = d.providerId ∧
     ex.name = d.name ∧
     ex.costPerMillionTokenInput = d.costPerMillionTokenInput ∧
     ex.costPerMillionTokenOutput = d.costPerMillionTokenOutput ∧
     setEq ex.capabilities d.capabilities = true ∧
     ex.availableForChatApp = d.availableForChatApp ∧
     ex.description = d.description ∧ ex.releaseDate = d.releaseDate ∧
     ex.isArchived = d.isArchived) := by
  subst hdes
  constructor
  · intro h
    cases hemp : (diffUpdates ex (buildRec today now g pid key cfg price)).isEmpty with
    | true => exact (isEmpty_diffUpdates_iff _ _).mp hemp
    | false =>
      rw [syncModelCore_updated today now s g pid key cfg price ex hp hex hemp] at h
      exact absurd h.1 (by simp)
  · intro h
    have hemp := (isEmpty_diffUpdates_iff _ _).mpr h
    rw [syncModelCore_unchanged today now s g pid key cfg price ex hp hex hemp]
    exact ⟨rfl, rfl⟩

theorem c6_capability_set_diff_witness :
    lookupAssoc cfgCaps.price "m1" = some ⟨1, 2⟩ ∧
    findModel storeCaps "m1" = some rowCaps ∧
    rowCaps.capabilities = ["vision", "pdf"] ∧
    (buildRec ⟨2026, 1, 1⟩ "t1" 0 (Uid.ext "P0") "m1" cfgCaps
      ⟨1, 2⟩).capabilities = ["pdf", "vision"] ∧
    ((syncModelCore noFail ⟨2026, 1, 1⟩ "t1" storeCaps 0 (Uid.ext "P0") "m1"
        cfgCaps).outcome = .unchanged ∧
      (syncModelCore noFail ⟨2026, 1, 1⟩ "t1" storeCaps 0 (Uid.ext "P0") "m1"
        cfgCaps).store = storeCaps) :=
  ⟨rfl, rfl, rfl, rfl,
   (c6_capability_set_diff ⟨2026, 1, 1⟩ "t1" storeCaps 0 (Uid.ext "P0") "m1"
       cfgCaps ⟨1, 2⟩ rowCaps _ rfl rfl rfl).mpr (by decide)⟩

end SyncModels

namespace SyncModels

theorem updateProviderRow_map_apiEndpoint (endpoint iconUrl : String)
    (updI : Bool) (pid : Uid) (s : Store) :
    ((updateProviderRow false endpoint updI iconUrl pid s).providers.map
      (·.apiEndpoint)) = s.providers.map (·.apiEndpoint) := by
  unfold updateProviderRow
  rw [List.map_map]
  apply List.map_congr_left
  intro x _
  by_cases h : x.id = pid <;> simp [h]

theorem updateProviderRow_map_icon (updE : Bool) (endpoint iconUrl : String)
    (pid : Uid) (s : Store) :
    ((updateProviderRow updE endpoint false iconUrl pid s).providers.map
      (·.icon)) = s.providers.map (·.icon) := by
  unfold updateProviderRow
  rw [List.map_map]
  apply List.map_congr_left
  intro x _
  by_cases h : x.id = pid <;> simp [h]

/-- C7: provider diff-update — for an existing `Provider` row, a field
(`apiEndpoint` or `icon`) is written only when the desired value is non-empty
and differs from the stored value: if the desired value is empty or equal to
the stored one, that column is unchanged across the whole collection, and when
neither field qualifies, no write occurs at all (the store is returned
exactly as it was). -/
theorem c7_provider_diff_update (env : List (String × String)) (s : Store)
    (g : Nat) (pname : String) (cfg : ProviderCfg) (p : ProviderRow)
    (hfind : findProvider s pname = some p) :
    (((envLookup env (providerEndpointVar pname) = "" ∨
        p.apiEndpoint = envLookup env (providerEndpointVar pname)) ∧
      (cfg.icon = "" ∨ p.icon = cfg.icon)) →
      (upsert_provider noFail env s g pname cfg).store = s) ∧
    ((envLookup env (providerEndpointVar pname) = "" ∨
        p.apiEndpoint = envLookup env (providerEndpointVar pname)) →
      ((upsert_provider noFail env s g pname cfg).store.providers.map
        (·.apiEndpoint)) = s.providers.map (·.apiEndpoint)) ∧
    ((cfg.icon = "" ∨ p.icon = cfg.icon) →
      ((upsert_provider noFail env s g pname cfg).store.providers.map
        (·.icon)) = s.providers.map (·.icon)) := by
  rw [upsert_provider_eq_existing noFail env s g pname cfg p
    (noFail_provLookupFails pname) hfind]
  refine ⟨?_, ?_, ?_⟩
  · rintro ⟨hE, hI⟩
    have h1 : upProvUpdE env pname p = false := by
      rcases hE with h | h <;> simp [upProvUpdE, upProvE, h]
    have h2 : upProvUpdI cfg p = false := by
      rcases hI with h | h <;> simp [upProvUpdI, h]
    rw [h1, h2]
    simp
  · intro hE
    have h1 : upProvUpdE env pname p = false := by
      rcases hE with h | h <;> simp [upProvUpdE, upProvE, h]
    rw [h1]
    cases h2 : upProvUpdI cfg p with
    | false => simp
    | true =>
      simp only [Bool.false_or, if_true, noFail_provUpdateFails,
        Bool.false_eq_true, if_false]
      exact updateProviderRow_map_apiEndpoint _ _ _ _ _
  · intro hI
    have h2 : upProvUpdI cfg p = false := by
      rcases hI with h | h <;> simp [upProvUpdI, h]
    rw [h2]
    cases h1 : upProvUpdE env pname p with
    | false => simp
    | true =>
      simp only [Bool.or_false, if_true, noFail_provUpdateFails,
        Bool.false_eq_true, if_false]
      exact updateProviderRow_map_icon _ _ _ _ _

/-- A stored provider row with populated endpoint and icon. -/
def provRowW : ProviderRow := ⟨Uid.ext "P0", "prov", "e0", "i0"⟩

def storeProvW : Store := ⟨[provRowW], []⟩

theorem c7_provider_diff_update_witness :
    findProvider storeProvW "prov" = some provRowW ∧
    envLookup [] (providerEndpointVar "prov") = "" ∧ cfgPricedK.icon = "" ∧
    ((((envLookup [] (providerEndpointVar "prov") = "" ∨
         provRowW.apiEndpoint = envLookup [] (providerEndpointVar "prov")) ∧
       (cfgPricedK.icon = "" ∨ provRowW.icon = cfgPricedK.icon)) →
       (upsert_provider noFail [] storeProvW 0 "prov" cfgPricedK).store
         = storeProvW) ∧
     ((envLookup [] (providerEndpointVar "prov") = "" ∨
        provRowW.apiEndpoint = envLookup [] (providerEndpointVar "prov")) →
       ((upsert_provider noFail [] storeProvW 0 "prov" cfgPricedK).store.providers.map
         (·.apiEndpoint)) = storeProvW.providers.map (·.apiEndpoint)) ∧
     ((cfgPricedK.icon = "" ∨ provRowW.icon = cfgPricedK.icon) →
       ((upsert_provider noFail [] storeProvW 0 "prov" cfgPricedK).store.providers.map
         (·.icon)) = storeProvW.providers.map (·.icon))) :=
  ⟨rfl, rfl, rfl,
   c7_provider_diff_update [] storeProvW 0 "prov" cfgPricedK provRowW rfl⟩

end SyncModels

namespace SyncModels

theorem upsert_provider_pid_none (o : Oracle) (env : List (String × String))
    (s : Store) (g : Nat) (pname : String) (cfg : ProviderCfg)
    (h : (upsert_provider o env s g pname cfg).pid = none) :
    upsert_provider o env s g pname cfg = ⟨none, s, g + 1, .insertFailed⟩ ∧
    (if o.provLookupFails pname then none else findProvider s pname) = none ∧
    o.provInsertFails pname = true := by
  cases hx : (if o.provLookupFails pname then none else findProvider s pname) with
  | some p =>
    exfalso
    have hl : o.provLookupFails pname = false := by
      cases hb : o.provLookupFails pname with
      | false => rfl
      | true => rw [hb] at hx; simp at hx
    have hf : findProvider s pname = some p := by
      rw [hl] at hx
      simpa using hx
    rw [upsert_provider_eq_existing o env s g pname cfg p hl hf] at h
    by_cases hb : (upProvUpdE env pname p || upProvUpdI cfg p) = true
    · rw [if_pos hb] at h
      by_cases hu : o.provUpdateFails pname = true
      · rw [if_pos hu] at h
        simp at h
      · rw [if_neg hu] at h
        simp at h
    · rw [if_neg hb] at h
      simp at h
  | none =>
    rw [upsert_provider_eq_absent o env s g pname cfg hx] at h ⊢
    by_cases hi : o.provInsertFails pname = true
    · rw [if_pos hi] at h ⊢
      exact ⟨rfl, rfl, hi⟩
    · rw [if_neg hi] at h
      simp at h

theorem upsert_provider_pid_none_intro (o : Oracle)
    (env : List (String × String)) (s : Store) (g : Nat) (pname : String)
    (cfg : ProviderCfg)
    (hx : (if o.provLookupFails pname then none else findProvider s pname) = none)
    (hi : o.provInsertFails pname = true) :
    (upsert_provider o env s g pname cfg).pid = none := by
  rw [upsert_provider_eq_absent o env s g pname cfg hx, if_pos hi]

/-- Oracle where only the Provider update write for `"prov"` raises. -/
def oracleUpdateFailProv : Oracle :=
  ⟨fun _ => false, fun n => n == "prov", fun _ => false,
   fun _ => false, fun _ => false, fun _ => false⟩

/-- Oracle where only the Provider insert write for `"q"` raises. -/
def oracleInsertFailQ : Oracle :=
  ⟨fun _ => false, fun _ => false, fun n => n == "q",
   fun _ => false, fun _ => false, fun _ => false⟩

/-- Store with provider `"prov"` whose stored endpoint differs from the
environment's. -/
def storeProvOld : Store := ⟨[⟨Uid.ext "P0", "prov", "old", ""⟩], []⟩

def envProvNew : List (String × String) := [("PROV_API_ENDPOINT", "new")]

/-- C8 (counterexample): provider `"prov"` suffers a write failure during its
reconciliation (the `apiEndpoint` update raises, outcome `updateFailed`), yet
the model key under it is NOT skipped: the run still creates model `"k"`. -/
theorem c8_counterexample_models_not_skipped :
    (upsert_provider oracleUpdateFailProv envProvNew storeProvOld 0 "prov"
      cfgPricedK).outcome = .updateFailed ∧
    (main oracleUpdateFailProv ⟨2026, 1, 1⟩ "t1" envProvNew []
      [("prov", cfgPricedK)] storeProvOld).modelOutcomes = [.created] := by
  constructor
  · decide
  · decide

/-- C8 (amended): the models of a provider are skipped for create/update
exactly when `upsert_provider` returns no id, which happens iff no existing
row was found (the lookup failed or the provider is absent) AND the insert
write failed.  In that case the provider contributes no model outcomes and no
store change beyond the failed step; an update write failure (or a lookup
failure followed by a successful insert) does not skip the provider's
models. -/
theorem c8_amended_skip_iff_no_pid (o : Oracle) (today : Date) (now : String)
    (env : List (String × String)) (filter : List String) (pname : String)
    (cfg0 : ProviderCfg) (rest : List (String × ProviderCfg)) (s : Store)
    (g : Nat) :
    ((upsert_provider o env s g pname cfg0).pid = none ↔
      ((if o.provLookupFails pname then none else findProvider s pname) = none ∧
        o.provInsertFails pname = true)) ∧
    ((upsert_provider o env s g pname cfg0).pid = none →
      (runProviders o today now env filter ((pname, cfg0) :: rest) s g).store =
        (runProviders o today now env filter rest s (g + 1)).store ∧
      (runProviders o today now env filter ((pname, cfg0) :: rest) s g).modelOutcomes =
        (runProviders o today now env filter rest s (g + 1)).modelOutcomes ∧
      (runProviders o today now env filter ((pname, cfg0) :: rest) s g).provOutcomes =
        .insertFailed ::
          (runProviders o today now env filter rest s (g + 1)).provOutcomes) := by
  constructor
  · constructor
    · intro h
      exact (upsert_provider_pid_none o env s g pname cfg0 h).2
    · rintro ⟨hx, hi⟩
      exact upsert_provider_pid_none_intro o env s g pname cfg0 hx hi
  · intro h
    have heq := (upsert_provider_pid_none o env s g pname cfg0 h).1
    simp [runProviders, heq]

theorem c8_amended_witness :
    (upsert_provider oracleInsertFailQ [] ⟨[], []⟩ 0 "q" cfgPricedK).pid = none ∧
    (runProviders oracleInsertFailQ ⟨2026, 1, 1⟩ "t1" [] []
      [("q", cfgPricedK)] ⟨[], []⟩ 0).modelOutcomes =
      (runProviders oracleInsertFailQ ⟨2026, 1, 1⟩ "t1" [] [] [] ⟨[], []⟩
        1).modelOutcomes :=
  ⟨by decide,
   ((c8_amended_skip_iff_no_pid oracleInsertFailQ ⟨2026, 1, 1⟩ "t1" [] [] "q"
      cfgPricedK [] ⟨[], []⟩ 0).2 (by decide)).2.1⟩

end SyncModels

namespace SyncModels

/-- A config listing model `"m"` with pricing, for the shared-key scenario. -/
def cfgShared : ProviderCfg := ⟨"", ["m"], [("m", ⟨1, 2⟩)], [], [], [], [], [], ""⟩

/-- Two providers both listing the same model key `"m"`. -/
def docShared : List (String × ProviderCfg) := [("a", cfgShared), ("b", cfgShared)]

/-- C3 (counterexample): with a model key listed under two providers, the
global `apiString` lookup makes the row's `providerId` flip on every run, so
the second run over the same document and the resulting store still produces
`updated` outcomes — the claim's unqualified idempotence is false. -/
theorem c3_counterexample_shared_key :
    (main noFail ⟨2026, 1, 1⟩ "t1" [] [] docShared
      (main noFail ⟨2026, 1, 1⟩ "t0" [] [] docShared ⟨[], []⟩).store).modelOutcomes
      = [.updated, .updated] := by
  decide

/-! ### Convergence predicates and invariants for the idempotence proof -/

def findProviderL (provs : List ProviderRow) (pname : String) : Option ProviderRow :=
  provs.find? (fun p => p.name == pname)

def findModelL (models : List ModelRow) (key : String) : Option ModelRow :=
  models.find? (fun m => m.apiString == key)

theorem findProvider_eq_L (s : Store) (n : String) :
    findProvider s n = findProviderL s.providers n := rfl

theorem findModel_eq_L (s : Store) (k : String) :
    findModel s k = findModelL s.models k := rfl

/-- Store invariant maintained by a run: provider ids are pairwise distinct
(the `id` column is the primary key of the `Provider` collection) and every
run-minted (`Uid.gen`) id is below the uuid counter. -/
def ProvsWF (provs : List ProviderRow) (g : Nat) : Prop :=
  (provs.map (·.id)).Nodup ∧
  ∀ p ∈ provs, ∀ n, p.id = Uid.gen n → n < g

theorem ProvsWF_mono {provs : List ProviderRow} {g g' : Nat}
    (h : ProvsWF provs g) (hle : g ≤ g') : ProvsWF provs g' :=
  ⟨h.1, fun p hp n hn => lt_of_lt_of_le (h.2 p hp n hn) hle⟩

/-- The provider row for `pname` is converged: it is found, has id `pid`, and
neither `apiEndpoint` nor `icon` qualifies for an update. -/
def provConverged (env : List (String × String)) (provs : List ProviderRow)
    (pname : String) (cfg : ProviderCfg) (pid : Uid) : Prop :=
  ∃ p, findProviderL provs pname = some p ∧ p.id = pid ∧
    (upProvE env pname = "" ∨ p.apiEndpoint = upProvE env pname) ∧
    (cfg.icon = "" ∨ p.icon = cfg.icon)

/-- If the key is priced, the first row with its `apiString` diffs empty
against the desired record for provider `pid`. -/
def modelConverged (today : Date) (models : List ModelRow) (pid : Uid)
    (key : String) (cfg : ProviderCfg) : Prop :=
  ∀ price, lookupAssoc cfg.price key = some price →
    ∃ m, findModelL models key = some m ∧
      (diffUpdates m (buildRec today "" 0 pid key cfg price)).isEmpty = true

/-- A key contributes no further writes: it is filtered out, or converged. -/
def keyStable (today : Date) (filter : List String) (models : List ModelRow)
    (pid : Uid) (key : String) (cfg : ProviderCfg) : Prop :=
  filterSkips filter (fullModelName cfg key) = true ∨
  modelConverged today models pid key cfg

/-- A document entry is fully reconciled in the store. -/
def entrySynced (today : Date) (env : List (String × String))
    (filter : List String) (s : Store) (e : String × ProviderCfg) : Prop :=
  ∃ pid, provConverged env s.providers e.1 e.2 pid ∧
    ∀ k ∈ e.2.models,
      keyStable today filter s.models pid k { e.2 with provider := e.1 }

theorem provConverged_of_find_eq {env : List (String × String)}
    {provs provs' : List ProviderRow} {pname : String} {cfg : ProviderCfg}
    {pid : Uid} (h : findProviderL provs' pname = findProviderL provs pname)
    (hc : provConverged env provs pname cfg pid) :
    provConverged env provs' pname cfg pid := by
  obtain ⟨p, hp, rest⟩ := hc
  exact ⟨p, h.trans hp, rest⟩

theorem modelConverged_of_find_eq {today : Date} {models models' : List ModelRow}
    {pid : Uid} {key : String} {cfg : ProviderCfg}
    (h : findModelL models' key = findModelL models key)
    (hc : modelConverged today models pid key cfg) :
    modelConverged today models' pid key cfg := by
  intro price hp
  obtain ⟨m, hm, he⟩ := hc price hp
  exact ⟨m, h.trans hm, he⟩

theorem keyStable_of_find_eq {today : Date} {filter : List String}
    {models models' : List ModelRow} {pid : Uid} {key : String}
    {cfg : ProviderCfg} (h : findModelL models' key = findModelL models key)
    (hc : keyStable today filter models pid key cfg) :
    keyStable today filter models' pid key cfg := by
  rcases hc with hc | hc
  · exact Or.inl hc
  · exact Or.inr (modelConverged_of_find_eq h hc)

theorem diffUpdates_buildRec_apiString_none {s : Store} {key : String}
    {ex : ModelRow} (today : Date) (now : String) (g : Nat) (pid : Uid)
    (cfg : ProviderCfg) (price : PriceInfo) (hex : findModel s key = some ex) :
    (diffUpdates ex (buildRec today now g pid key cfg price)).apiString = none := by
  have h1 : ex.apiString = key := findModel_apiString hex
  have h2 : (buildRec today now g pid key cfg price).apiString = key := rfl
  simp [diffUpdates, diffField_eq_none, h1, h2]

end SyncModels

namespace SyncModels

theorem sync_model_stable (today : Date) (now : String) (filter : List String)
    (s : Store) (g : Nat) (pid : Uid) (key : String) (cfg : ProviderCfg)
    (h : keyStable today filter s.models pid key cfg) :
    (sync_model noFail today now filter s g pid key cfg).store = s ∧
    (sync_model noFail today now filter s g pid key cfg).outcome ≠ .created ∧
    (sync_model noFail today now filter s g pid key cfg).outcome ≠ .updated := by
  cases hf : filterSkips filter (fullModelName cfg key) with
  | true =>
    unfold sync_model
    rw [hf]
    simp
  | false =>
    have hglue : sync_model noFail today now filter s g pid key cfg
        = syncModelCore noFail today now s g pid key cfg := by
      unfold sync_model
      rw [hf]
      simp
    rw [hglue]
    rcases h with h | h
    · rw [hf] at h
      exact absurd h (by simp)
    · cases hp : lookupAssoc cfg.price key with
      | none =>
        rw [syncModelCore_price_none noFail today now s g pid key cfg hp]
        exact ⟨rfl, by simp, by simp⟩
      | some price =>
        obtain ⟨m, hm, hemp⟩ := h price hp
        have hm' : findModel s key = some m := hm
        have hemp' : (diffUpdates m (buildRec today now g pid key cfg price)).isEmpty = true := by
          rw [diffUpdates_buildRec_params m today now "" g 0 pid key cfg price]
          exact hemp
        rw [syncModelCore_unchanged today now s g pid key cfg price m hp hm' hemp']
        exact ⟨rfl, by simp, by simp⟩

theorem sync_model_effects (today : Date) (now : String) (filter : List String)
    (s : Store) (g : Nat) (pid : Uid) (key : String) (cfg : ProviderCfg) :
    (sync_model noFail today now filter s g pid key cfg).store.providers = s.providers ∧
    g ≤ (sync_model noFail today now filter s g pid key cfg).gen ∧
    (∀ key', key' ≠ key →
      findModelL (sync_model noFail today now filter s g pid key cfg).store.models key'
        = findModelL s.models key') ∧
    keyStable today filter
      (sync_model noFail today now filter s g pid key cfg).store.models pid key cfg := by
  cases hf : filterSkips filter (fullModelName cfg key) with
  | true =>
    have hglue : sync_model noFail today now filter s g pid key cfg
        = ⟨s, g, .skippedFiltered⟩ := by
      unfold sync_model
      rw [hf]
      simp
    rw [hglue]
    exact ⟨rfl, Nat.le_refl g, fun _ _ => rfl, Or.inl hf⟩
  | false =>
    have hglue : sync_model noFail today now filter s g pid key cfg
        = syncModelCore noFail today now s g pid key cfg := by
      unfold sync_model
      rw [hf]
      simp
    rw [hglue]
    cases hp : lookupAssoc cfg.price key with
    | none =>
      rw [syncModelCore_price_none noFail today now s g pid key cfg hp]
      refine ⟨rfl, Nat.le_refl g, fun _ _ => rfl, Or.inr ?_⟩
      intro price hp'
      rw [hp] at hp'
      cases hp'
    | some price =>
      cases hex : findModel s key with
      | none =>
        rw [syncModelCore_created today now s g pid key cfg price hp hex]
        refine ⟨rfl, Nat.le_succ g, ?_, Or.inr ?_⟩
        · intro key' hne
          exact findModel_append_other (Ne.symm hne)
        · intro price' hp'
          rw [hp] at hp'
          injection hp' with hpe
          subst hpe
          refine ⟨buildRec today now g pid key cfg price,
            findModel_append_self hex rfl, ?_⟩
          rw [diffUpdates_buildRec_params _ today "" now 0 g pid key cfg price]
          exact diffUpdates_self_isEmpty _
      | some ex =>
        cases hemp : (diffUpdates ex (buildRec today now g pid key cfg price)).isEmpty with
        | true =>
          rw [syncModelCore_unchanged today now s g pid key cfg price ex hp hex hemp]
          refine ⟨rfl, Nat.le_succ g, fun _ _ => rfl, Or.inr ?_⟩
          intro price' hp'
          rw [hp] at hp'
          injection hp' with hpe
          subst hpe
          refine ⟨ex, hex, ?_⟩
          rw [diffUpdates_buildRec_params ex today "" now 0 g pid key cfg price]
          exact hemp
        | false =>
          rw [syncModelCore_updated today now s g pid key cfg price ex hp hex hemp]
          have hapi := diffUpdates_buildRec_apiString_none today now g pid cfg price hex
          refine ⟨rfl, Nat.le_succ g, ?_, Or.inr ?_⟩
          · intro key' hne
            exact findModel_update_other hapi hne
          · intro price' hp'
            rw [hp] at hp'
            injection hp' with hpe
            subst hpe
            refine ⟨_, findModel_update_self hapi hex, ?_⟩
            rw [diffUpdates_buildRec_params _ today "" now 0 g pid key cfg price]
            exact diffUpdates_apply_isEmpty ex (buildRec today now g pid key cfg price) now

theorem syncModels_effects (today : Date) (now : String) (filter : List String)
    (pid : Uid) (cfg : ProviderCfg) :
    ∀ (keys : List String) (s : Store) (g : Nat),
    (syncModels noFail today now filter pid cfg keys s g).1.providers = s.providers ∧
    g ≤ (syncModels noFail today now filter pid cfg keys s g).2.1 ∧
    (∀ key', key' ∉ keys →
      findModelL (syncModels noFail today now filter pid cfg keys s g).1.models key'
        = findModelL s.models key') ∧
    (∀ k ∈ keys,
      keyStable today filter
        (syncModels noFail today now filter pid cfg keys s g).1.models pid k cfg)
  | [], s, g => by
    refine ⟨rfl, Nat.le_refl g, fun _ _ => rfl, ?_⟩
    intro k hk
    cases hk
  | key :: ks, s, g => by
    have hstep := sync_model_effects today now filter s g pid key cfg
    have hIH := syncModels_effects today now filter pid cfg ks
      (sync_model noFail today now filter s g pid key cfg).store
      (sync_model noFail today now filter s g pid key cfg).gen
    simp only [syncModels]
    refine ⟨hIH.1.trans hstep.1, Nat.le_trans hstep.2.1 hIH.2.1, ?_, ?_⟩
    · intro key' hnotin
      have h1 : key' ≠ key := fun h => hnotin (h ▸ List.mem_cons_self key ks)
      have h2 : key' ∉ ks := fun h => hnotin (List.mem_cons_of_mem key h)
      exact (hIH.2.2.1 key' h2).trans (hstep.2.2.1 key' h1)
    · intro k hk
      rcases List.mem_cons.mp hk with hk | hk
      · subst hk
        by_cases hmem : k ∈ ks
        · exact hIH.2.2.2 k hmem
        · exact keyStable_of_find_eq (hIH.2.2.1 k hmem) hstep.2.2.2
      · exact hIH.2.2.2 k hk

theorem syncModels_stable (today : Date) (now : String) (filter : List String)
    (pid : Uid) (cfg : ProviderCfg) :
    ∀ (keys : List String) (s : Store) (g : Nat),
    (∀ k ∈ keys, keyStable today filter s.models pid k cfg) →
    (syncModels noFail today now filter pid cfg keys s g).1 = s ∧
    (∀ mo ∈ (syncModels noFail today now filter pid cfg keys s g).2.2,
      mo ≠ .created ∧ mo ≠ .updated)
  | [], s, g, _ => by
    refine ⟨rfl, ?_⟩
    intro mo hmo
    cases hmo
  | key :: ks, s, g, h => by
    have hstep := sync_model_stable today now filter s g pid key cfg
      (h key (List.mem_cons_self key ks))
    have hIH := syncModels_stable today now filter pid cfg ks
      (sync_model noFail today now filter s g pid key cfg).store
      (sync_model noFail today now filter s g pid key cfg).gen
      (by
        rw [hstep.1]
        intro k hk
        exact h k (List.mem_cons_of_mem key hk))
    simp only [syncModels]
    refine ⟨hIH.1.trans hstep.1, ?_⟩
    intro mo hmo
    rcases List.mem_cons.mp hmo with hmo | hmo
    · subst hmo
      exact hstep.2
    · exact hIH.2 mo hmo

end SyncModels

namespace SyncModels

theorem updE_false_iff (env : List (String × String)) (pname : String)
    (p : ProviderRow) :
    upProvUpdE env pname p = false ↔
      (upProvE env pname = "" ∨ p.apiEndpoint = upProvE env pname) := by
  unfold upProvUpdE
  by_cases h1 : upProvE env pname = "" <;>
    by_cases h2 : p.apiEndpoint = upProvE env pname <;>
      simp [h1, h2]

theorem updI_false_iff (cfg : ProviderCfg) (p : ProviderRow) :
    upProvUpdI cfg p = false ↔ (cfg.icon = "" ∨ p.icon = cfg.icon) := by
  unfold upProvUpdI
  by_cases h1 : cfg.icon = "" <;>
    by_cases h2 : p.icon = cfg.icon <;>
      simp [h1, h2]

theorem upsert_provider_converged_noop (env : List (String × String))
    (s : Store) (g : Nat) (pname : String) (cfg : ProviderCfg) (pid : Uid)
    (h : provConverged env s.providers pname cfg pid) :
    upsert_provider noFail env s g pname cfg = ⟨some pid, s, g, .unchanged⟩ := by
  obtain ⟨p, hp, hpid, hE, hI⟩ := h
  rw [upsert_provider_eq_existing noFail env s g pname cfg p
    (noFail_provLookupFails pname) hp]
  have h1 : upProvUpdE env pname p = false := (updE_false_iff env pname p).mpr hE
  have h2 : upProvUpdI cfg p = false := (updI_false_iff cfg p).mpr hI
  rw [h1, h2]
  simp [hpid]

theorem upsert_provider_effects (env : List (String × String)) (s : Store)
    (g : Nat) (pname : String) (cfg : ProviderCfg)
    (hwf : ProvsWF s.providers g) :
    ∃ pid, (upsert_provider noFail env s g pname cfg).pid = some pid ∧
      provConverged env (upsert_provider noFail env s g pname cfg).store.providers
        pname cfg pid ∧
      (upsert_provider noFail env s g pname cfg).store.models = s.models ∧
      ProvsWF (upsert_provider noFail env s g pname cfg).store.providers
        (upsert_provider noFail env s g pname cfg).gen ∧
      g ≤ (upsert_provider noFail env s g pname cfg).gen ∧
      (∀ pname', pname' ≠ pname →
        findProviderL (upsert_provider noFail env s g pname cfg).store.providers pname'
          = findProviderL s.providers pname') := by
  cases hfind : findProviderL s.providers pname with
  | some p =>
    rw [upsert_provider_eq_existing noFail env s g pname cfg p
      (noFail_provLookupFails pname) hfind]
    rw [noFail_provUpdateFails]
    simp only [Bool.false_eq_true, if_false]
    cases hb : (upProvUpdE env pname p || upProvUpdI cfg p) with
    | false =>
      simp only [Bool.false_eq_true, if_false]
      have hbe : upProvUpdE env pname p = false := by
        cases hx : upProvUpdE env pname p
        · rfl
        · rw [hx] at hb
          simp at hb
      have hbi : upProvUpdI cfg p = false := by
        cases hx : upProvUpdI cfg p
        · rfl
        · rw [hx] at hb
          simp at hb
      refine ⟨p.id, ?_, ?_, ?_, ?_, ?_, ?_⟩
      · simp
      · exact ⟨p, hfind, rfl, (updE_false_iff env pname p).mp hbe,
          (updI_false_iff cfg p).mp hbi⟩
      · simp
      · exact hwf
      · exact Nat.le_refl g
      · simp
    | true =>
      rw [if_pos rfl]
      have hpres : ∀ (nm : String) (x : ProviderRow),
          ((if x.id == p.id then
              { x with
                apiEndpoint := if upProvUpdE env pname p then upProvE env pname
                  else x.apiEndpoint
                icon := if upProvUpdI cfg p then cfg.icon else x.icon }
            else x).name == nm) = (x.name == nm) := by
        intro nm x
        by_cases h : x.id == p.id <;> simp [h]
      have hfind' :
          findProviderL (updateProviderRow (upProvUpdE env pname p)
            (upProvE env pname) (upProvUpdI cfg p) cfg.icon p.id s).providers pname
          = some (if p.id == p.id then
              { p with
                apiEndpoint := if upProvUpdE env pname p then upProvE env pname
                  else p.apiEndpoint
                icon := if upProvUpdI cfg p then cfg.icon else p.icon }
            else p) := by
        unfold findProviderL updateProviderRow
        rw [find?_map_of_pres (hpres pname)]
        unfold findProviderL at hfind
        rw [hfind]
        rfl
      have hids : ((updateProviderRow (upProvUpdE env pname p)
          (upProvE env pname) (upProvUpdI cfg p) cfg.icon p.id s).providers.map
            (·.id)) = s.providers.map (·.id) := by
        unfold updateProviderRow
        rw [List.map_map]
        apply List.map_congr_left
        intro x _
        by_cases h : x.id = p.id <;> simp [h]
      refine ⟨p.id, rfl, ?_, rfl, ⟨?_, ?_⟩, Nat.le_refl g, ?_⟩
      · refine ⟨_, hfind', by simp, ?_, ?_⟩
        · cases hE : upProvUpdE env pname p with
          | true => right; simp [hE]
          | false =>
            rcases (updE_false_iff env pname p).mp hE with h | h
            · exact Or.inl h
            · right
              simp [hE, h]
        · cases hI : upProvUpdI cfg p with
          | true => right; simp [hI]
          | false =>
            rcases (updI_false_iff cfg p).mp hI with h | h
            · exact Or.inl h
            · right
              simp [hI, h]
      · rw [hids]
        exact hwf.1
      · intro q hq n hn
        unfold updateProviderRow at hq
        obtain ⟨x, hx, rfl⟩ := List.mem_map.mp hq
        have hid : (if x.id == p.id then
            { x with
              apiEndpoint := if upProvUpdE env pname p then upProvE env pname
                else x.apiEndpoint
              icon := if upProvUpdI cfg p then cfg.icon else x.icon }
          else x).id = x.id := by
          by_cases h : x.id == p.id <;> simp [h]
        rw [hid] at hn
        exact hwf.2 x hx n hn
      · intro pname' hne
        unfold findProviderL updateProviderRow
        rw [find?_map_of_pres (hpres pname')]
        cases hr : s.providers.find? (fun q => q.name == pname') with
        | none => rfl
        | some r =>
          have hrname : r.name = pname' := by
            have := List.find?_some hr
            simpa using this
          have hpname : p.name = pname := findProvider_name hfind
          have hrp : r ≠ p := by
            intro h
            rw [h, hpname] at hrname
            exact hne hrname.symm
          have hrid : ¬ r.id = p.id := by
            intro h
            exact hrp (List.inj_on_of_nodup_map hwf.1
              (List.mem_of_find?_eq_some hr)
              (List.mem_of_find?_eq_some hfind) h)
          simp [hrid]
  | none =>
    have hx : (if noFail.provLookupFails pname then none
        else findProvider s pname) = none := by
      rw [noFail_provLookupFails]
      simpa using hfind
    rw [upsert_provider_eq_absent noFail env s g pname cfg hx,
      noFail_provInsertFails]
    simp only [Bool.false_eq_true, if_false]
    have hnotin : Uid.gen g ∉ s.providers.map (·.id) := by
      intro hmem
      obtain ⟨q, hq, hqid⟩ := List.mem_map.mp hmem
      exact absurd (hwf.2 q hq g hqid) (Nat.lt_irrefl g)
    refine ⟨Uid.gen g, ?_, ?_, ?_, ⟨?_, ?_⟩, ?_, ?_⟩
    · simp
    · refine ⟨⟨Uid.gen g, pname, upProvE env pname, cfg.icon⟩, ?_, rfl,
        Or.inr rfl, Or.inr rfl⟩
      unfold findProviderL at hfind ⊢
      rw [List.find?_append, hfind]
      simp
    · simp
    · rw [List.map_append]
      rw [List.nodup_append]
      refine ⟨hwf.1, List.nodup_singleton _, ?_⟩
      intro a ha hb
      simp at hb
      subst hb
      exact hnotin ha
    · intro q hq n hn
      rcases List.mem_append.mp hq with hq | hq
      · exact Nat.lt_succ_of_lt (hwf.2 q hq n hn)
      · simp at hq
        subst hq
        simp at hn
        subst hn
        exact Nat.lt_succ_self g
    · exact Nat.le_succ g
    · intro pname' hne
      unfold findProviderL
      rw [List.find?_append]
      cases hr : s.providers.find? (fun q => q.name == pname') with
      | none =>
        simp [Ne.symm hne]
      | some r => rfl

end SyncModels

namespace SyncModels

theorem runProviders_run1 (today : Date) (now : String)
    (env : List (String × String)) (filter : List String) :
    ∀ (doc : List (String × ProviderCfg)) (s : Store) (g : Nat),
    ProvsWF s.providers g →
    (doc.map (·.1)).Nodup →
    doc.Pairwise (fun a b => ∀ k, k ∈ a.2.models → k ∉ b.2.models) →
    ProvsWF (runProviders noFail today now env filter doc s g).store.providers
      (runProviders noFail today now env filter doc s g).gen ∧
    (∀ pname', pname' ∉ doc.map (·.1) →
      findProviderL (runProviders noFail today now env filter doc s g).store.providers pname'
        = findProviderL s.providers pname') ∧
    (∀ key', (∀ e ∈ doc, key' ∉ e.2.models) →
      findModelL (runProviders noFail today now env filter doc s g).store.models key'
        = findModelL s.models key') ∧
    (∀ e ∈ doc, entrySynced today env filter
      (runProviders noFail today now env filter doc s g).store e)
  | [], s, g, hwf, _, _ =>
    ⟨hwf, fun _ _ => rfl, fun _ _ => rfl, by
      intro e he
      cases he⟩
  | (pname, cfg0) :: rest, s, g, hwf, hnames, hdisj => by
    obtain ⟨pid, hpid, hconv, hmodels, hwf1, hge1, hframe1⟩ :=
      upsert_provider_effects env s g pname cfg0 hwf
    have hnames' := List.nodup_cons.mp hnames
    have hdisj' := List.pairwise_cons.mp hdisj
    have hsm := syncModels_effects today now filter pid
      { cfg0 with provider := pname } cfg0.models
      (upsert_provider noFail env s g pname cfg0).store
      (upsert_provider noFail env s g pname cfg0).gen
    have hwfA : ProvsWF
        (syncModels noFail today now filter pid { cfg0 with provider := pname }
          cfg0.models
          (upsert_provider noFail env s g pname cfg0).store
          (upsert_provider noFail env s g pname cfg0).gen).1.providers
        (syncModels noFail today now filter pid { cfg0 with provider := pname }
          cfg0.models
          (upsert_provider noFail env s g pname cfg0).store
          (upsert_provider noFail env s g pname cfg0).gen).2.1 := by
      rw [hsm.1]
      exact ProvsWF_mono hwf1 hsm.2.1
    have hIH := runProviders_run1 today now env filter rest
      (syncModels noFail today now filter pid { cfg0 with provider := pname }
        cfg0.models
        (upsert_provider noFail env s g pname cfg0).store
        (upsert_provider noFail env s g pname cfg0).gen).1
      (syncModels noFail today now filter pid { cfg0 with provider := pname }
        cfg0.models
        (upsert_provider noFail env s g pname cfg0).store
        (upsert_provider noFail env s g pname cfg0).gen).2.1
      hwfA hnames'.2 hdisj'.2
    simp only [runProviders]
    rw [hpid]
    refine ⟨hIH.1, ?_, ?_, ?_⟩
    · intro pname' hnot
      have hne : pname' ≠ pname := by
        intro h
        exact hnot (h ▸ List.mem_cons_self _ _)
      have hnot' : pname' ∉ rest.map (·.1) := by
        intro h
        exact hnot (List.mem_cons_of_mem _ h)
      refine (hIH.2.1 pname' hnot').trans ?_
      rw [hsm.1]
      exact hframe1 pname' hne
    · intro key' hkey
      have hhead : key' ∉ cfg0.models :=
        hkey (pname, cfg0) (List.mem_cons_self _ _)
      have htail : ∀ e ∈ rest, key' ∉ e.2.models :=
        fun e he => hkey e (List.mem_cons_of_mem _ he)
      refine (hIH.2.2.1 key' htail).trans ?_
      refine (hsm.2.2.1 key' hhead).trans ?_
      rw [hmodels]
    · intro e he
      rcases List.mem_cons.mp he with he | he
      · subst he
        refine ⟨pid, ?_, ?_⟩
        · refine provConverged_of_find_eq (hIH.2.1 pname hnames'.1) ?_
          refine provConverged_of_find_eq ?_ hconv
          rw [hsm.1]
        · intro k hk
          have hrest : ∀ e' ∈ rest, k ∉ e'.2.models :=
            fun e' he' => hdisj'.1 e' he' k hk
          exact keyStable_of_find_eq (hIH.2.2.1 k hrest) (hsm.2.2.2 k hk)
      · exact hIH.2.2.2 e he

theorem runProviders_run2 (today : Date) (now : String)
    (env : List (String × String)) (filter : List String) :
    ∀ (doc : List (String × ProviderCfg)) (s : Store) (g : Nat),
    (∀ e ∈ doc, entrySynced today env filter s e) →
    (runProviders noFail today now env filter doc s g).store = s ∧
    (∀ po ∈ (runProviders noFail today now env filter doc s g).provOutcomes,
      po = .unchanged) ∧
    (∀ mo ∈ (runProviders noFail today now env filter doc s g).modelOutcomes,
      mo ≠ .created ∧ mo ≠ .updated)
  | [], s, g, _ =>
    ⟨rfl, fun po hpo => absurd hpo (List.not_mem_nil po),
     fun mo hmo => absurd hmo (List.not_mem_nil mo)⟩
  | (pname, cfg0) :: rest, s, g, hsync => by
    obtain ⟨pid, hconv, hkeys⟩ := hsync (pname, cfg0) (List.mem_cons_self _ _)
    have hup := upsert_provider_converged_noop env s g pname cfg0 pid hconv
    have hstab := syncModels_stable today now filter pid
      { cfg0 with provider := pname } cfg0.models
      s g hkeys
    have hIH := runProviders_run2 today now env filter rest
      (syncModels noFail today now filter pid { cfg0 with provider := pname }
        cfg0.models s g).1
      (syncModels noFail today now filter pid { cfg0 with provider := pname }
        cfg0.models s g).2.1
      (by
        rw [hstab.1]
        exact fun e he => hsync e (List.mem_cons_of_mem _ he))
    simp only [runProviders]
    rw [hup]
    refine ⟨?_, ?_, ?_⟩
    · exact hIH.1.trans hstab.1
    · intro po hpo
      rcases List.mem_cons.mp hpo with hpo | hpo
      · exact hpo
      · exact hIH.2.1 po hpo
    · intro mo hmo
      rcases List.mem_append.mp hmo with hmo | hmo
      · exact hstab.2 mo hmo
      · exact hIH.2.2 mo hmo

end SyncModels

namespace SyncModels

/-- C3 (amended): reconciliation is idempotent for well-formed inputs — for
every desired-state document whose provider names are distinct (it is a JSON
object) and in which no model key is listed under two different providers, and
every store whose provider ids are distinct (the id column is the primary key)
and predate the run, running the full reconciliation once and then again with
the same document, environment, filter and date against the resulting store
produces no Provider create/update and no Model create/update on the second
run.  (Without the shared-key proviso the claim is false: see the
counterexample, where the row's `providerId` flips every run.) -/
theorem c3_amended_idempotent (today : Date) (now1 now2 : String)
    (env : List (String × String)) (filter : List String)
    (doc : List (String × ProviderCfg)) (s : Store)
    (hids : (s.providers.map (·.id)).Nodup)
    (hext : ∀ p ∈ s.providers, ∀ n, p.id ≠ Uid.gen n)
    (hnames : (doc.map (·.1)).Nodup)
    (hdisj : doc.Pairwise (fun a b => ∀ k, k ∈ a.2.models → k ∉ b.2.models)) :
    (∀ po ∈ (main noFail today now2 env filter doc
        (main noFail today now1 env filter doc s).store).provOutcomes,
      po = .unchanged) ∧
    (∀ mo ∈ (main noFail today now2 env filter doc
        (main noFail today now1 env filter doc s).store).modelOutcomes,
      mo ≠ .created ∧ mo ≠ .updated) := by
  have hwf0 : ProvsWF s.providers 0 :=
    ⟨hids, fun p hp n hn => absurd hn (hext p hp n)⟩
  have h1 := runProviders_run1 today now1 env filter doc s 0 hwf0 hnames hdisj
  have h2 := runProviders_run2 today now2 env filter doc
    (runProviders noFail today now1 env filter doc s 0).store 0 h1.2.2.2
  exact ⟨h2.2.1, h2.2.2⟩

theorem c3_amended_idempotent_witness :
    (((⟨[], []⟩ : Store).providers.map (·.id)).Nodup) ∧
    (∀ p ∈ (⟨[], []⟩ : Store).providers, ∀ n, p.id ≠ Uid.gen n) ∧
    (([("prov", cfgPricedK)].map (·.1)).Nodup) ∧
    ([("prov", cfgPricedK)].Pairwise
      (fun a b => ∀ k, k ∈ a.2.models → k ∉ b.2.models)) ∧
    ((∀ po ∈ (main noFail ⟨2026, 1, 1⟩ "t2" [] [] [("prov", cfgPricedK)]
        (main noFail ⟨2026, 1, 1⟩ "t1" [] [] [("prov", cfgPricedK)]
          ⟨[], []⟩).store).provOutcomes, po = .unchanged) ∧
     (∀ mo ∈ (main noFail ⟨2026, 1, 1⟩ "t2" [] [] [("prov", cfgPricedK)]
        (main noFail ⟨2026, 1, 1⟩ "t1" [] [] [("prov", cfgPricedK)]
          ⟨[], []⟩).store).modelOutcomes,
       mo ≠ .created ∧ mo ≠ .updated)) :=
  ⟨by simp, by simp, by simp, by simp,
   c3_amended_idempotent ⟨2026, 1, 1⟩ "t1" "t2" [] [] [("prov", cfgPricedK)]
     ⟨[], []⟩ (by simp) (by simp) (by simp) (by simp)⟩

end SyncModels
